import Mathlib

set_option maxRecDepth 8000

/-!
Verification development for the Nykaa scraper repository
(`nykaa_scraper.py`).  The Python source is shallowly embedded: pure
helper functions become Lean functions, the review-collection loop in
`_scrape_reviews_with_infinite_scroll_driver` becomes a fuel-indexed
state-transition function over an explicit page model, and fallible
steps are modelled with `Option` / explicit abort flags.  Machine
integers are modelled with `Int`/`Nat` (no overflow is relevant here)
and CPython floats that only carry decimal literals are modelled with
`Rat`.
-/

namespace Nykaa

/-- Embeds the `UserInfo` dataclass of `nykaa_scraper.py` (lines 69-77). -/
structure UserInfo where
  username : String
  user_id : Option String
  verified_purchase : Bool
  review_count : Option Int
  location : Option String
  join_date : Option String
deriving DecidableEq

/-- Embeds the `Review` dataclass of `nykaa_scraper.py` (lines 80-93). -/
structure Review where
  review_id : Option String
  user_info : UserInfo
  rating : Int
  title : String
  content : String
  date : String
  helpful_count : Int
  verified_purchase : Bool
  images : List String
  pros : List String
  cons : List String
deriving DecidableEq

/-- Python string slice `s[:n]`. -/
def pyPrefix (n : Nat) (s : String) : String :=
  ⟨s.data.take n⟩

/-- The dedup key built at line 2029 of `nykaa_scraper.py`:
`f"{review.user_info.username}_{review.rating}_{review.content[:50]}"`. -/
def reviewIdentifier (r : Review) : String :=
  r.user_info.username ++ "_" ++ toString r.rating ++ "_" ++ pyPrefix 50 r.content

/-- The fingerprint described by the spec (section 3 and glossary):
`(author.name, rating, first-50-chars(body), date)`.  This definition
follows the spec's words; it is compared against `reviewIdentifier`,
which is the key the code actually uses. -/
def specFingerprint (r : Review) : String × Int × String × String :=
  (r.user_info.username, r.rating, pyPrefix 50 r.content, r.date)

/-- The review accumulator of the scroll loop: the `seen_reviews` set
(modelled as the list of identifiers added so far) and the `reviews`
list, in insertion order. -/
structure Accum where
  seen : List String
  reviews : List Review
deriving DecidableEq

/-- Embeds the `for review in current_reviews` dedup loop at lines
2027-2033 of `nykaa_scraper.py`.  Returns the updated accumulator and
`new_reviews_count`. -/
def addReviews : Accum → List Review → Accum × Nat
  | acc, [] => (acc, 0)
  | acc, r :: rs =>
    let ident := reviewIdentifier r
    if ident ∈ acc.seen then addReviews acc rs
    else
      let p := addReviews ⟨ident :: acc.seen, acc.reviews ++ [r]⟩ rs
      (p.1, p.2 + 1)

/-- One round of page behaviour as observed by the scroll loop: the
batch the extractor returns, whether the scroll script ran without an
exception, whether a displayed-and-enabled load-more button was found
by the selector scan, and whether the page showed a "no more reviews"
indicator (the source never reads the last field: the loop at lines
2022-2087 contains no end-of-data check). -/
structure ScrollRound where
  extracted : List Review
  scrollOk : Bool
  clickable : Bool
  endIndicator : Bool

/-- State of the loop in `_scrape_reviews_with_infinite_scroll_driver`:
accumulator, `consecutive_no_new_reviews`, `scroll_attempts`, the number
of load-more clicks performed, and whether the surrounding
`try/except` caught an exception and ended the loop. -/
structure LoopState where
  acc : Accum
  consecutive : Nat
  attempts : Nat
  clicks : Nat
  aborted : Bool
deriving DecidableEq

def initLoopState : LoopState := ⟨⟨[], []⟩, 0, 0, 0, false⟩

/-- The `while` guard at line 2022:
`scroll_attempts < max_scroll_attempts and consecutive_no_new_reviews < max_consecutive_no_new`. -/
def loopGuard (maxScroll maxConsec : Nat) (st : LoopState) : Prop :=
  st.attempts < maxScroll ∧ st.consecutive < maxConsec

instance (ms mc : Nat) (st : LoopState) : Decidable (loopGuard ms mc st) := by
  unfold loopGuard; infer_instance

/-- Fuel-indexed embedding of the `while` loop at lines 2022-2087 of
`nykaa_scraper.py`, parameterised by the two budget constants.  Each
iteration: extract and dedup-insert the current batch, update the
no-new counter, then scroll (an exception here is caught by the outer
`try/except` at lines 2018/2089, which ends the loop and falls through
to `return reviews` — modelled by the `aborted` branch), then attempt
the load-more click (exceptions inside the selector scan are swallowed
per-selector; the net effect is whether a click happened), then
increment `scroll_attempts`. -/
def scrollLoopAux (page : Nat → ScrollRound) (maxScroll maxConsec : Nat) :
    Nat → LoopState → LoopState
  | 0, st => st
  | fuel + 1, st =>
    if loopGuard maxScroll maxConsec st then
      let r := page st.attempts
      let p := addReviews st.acc r.extracted
      let consec := if p.2 = 0 then st.consecutive + 1 else 0
      if r.scrollOk then
        scrollLoopAux page maxScroll maxConsec fuel
          { acc := p.1, consecutive := consec, attempts := st.attempts + 1,
            clicks := st.clicks + (if r.clickable then 1 else 0), aborted := false }
      else
        { acc := p.1, consecutive := consec, attempts := st.attempts,
          clicks := st.clicks, aborted := true }
    else st

/-- Run the loop from the initial state.  `maxScroll` is also a fuel
bound: the loop body increments `scroll_attempts` once per iteration,
so `maxScroll` iterations always suffice to falsify the guard. -/
def scrollLoopRun (page : Nat → ScrollRound) (maxScroll maxConsec : Nat) : LoopState :=
  scrollLoopAux page maxScroll maxConsec maxScroll initLoopState

/-- Embeds `_scrape_reviews_with_infinite_scroll_driver` (lines
2009-2093) with the source's constants `max_scroll_attempts = 100` and
`max_consecutive_no_new = 8`; returns the accumulated `reviews` list. -/
def scrape_reviews_with_infinite_scroll_driver (page : Nat → ScrollRound) : List Review :=
  (scrollLoopRun page 100 8).acc.reviews

lemma addReviews_seen_mem (R : List Review) :
    ∀ (acc : Accum) (x : String),
      x ∈ (addReviews acc R).1.seen ↔ x ∈ acc.seen ∨ x ∈ R.map reviewIdentifier := by
  induction R with
  | nil => intro acc x; simp [addReviews]
  | cons r rs ih =>
    intro acc x
    by_cases h : reviewIdentifier r ∈ acc.seen
    · simp only [addReviews, if_pos h, ih, List.map_cons, List.mem_cons]
      constructor
      · rintro (hx | hx)
        · exact Or.inl hx
        · exact Or.inr (Or.inr hx)
      · rintro (hx | hx | hx)
        · exact Or.inl hx
        · exact Or.inl (hx ▸ h)
        · exact Or.inr hx
    · simp only [addReviews, if_neg h, ih, List.map_cons, List.mem_cons]
      tauto

lemma addReviews_len_eq (R : List Review) :
    ∀ acc : Accum, acc.reviews.length = acc.seen.length →
      (addReviews acc R).1.reviews.length = (addReviews acc R).1.seen.length := by
  induction R with
  | nil => intro acc h; simpa [addReviews] using h
  | cons r rs ih =>
    intro acc h
    by_cases hm : reviewIdentifier r ∈ acc.seen
    · simpa [addReviews, hm] using ih acc h
    · simpa [addReviews, hm] using ih ⟨reviewIdentifier r :: acc.seen, acc.reviews ++ [r]⟩ (by simp [h])

lemma addReviews_seen_nodup (R : List Review) :
    ∀ acc : Accum, acc.seen.Nodup → (addReviews acc R).1.seen.Nodup := by
  induction R with
  | nil => intro acc h; simpa [addReviews] using h
  | cons r rs ih =>
    intro acc h
    by_cases hm : reviewIdentifier r ∈ acc.seen
    · simpa [addReviews, hm] using ih acc h
    · simpa [addReviews, hm] using
        ih ⟨reviewIdentifier r :: acc.seen, acc.reviews ++ [r]⟩ (by simp [h, hm])

lemma addReviews_stale (R : List Review) :
    ∀ acc : Accum, (∀ r ∈ R, reviewIdentifier r ∈ acc.seen) → addReviews acc R = (acc, 0) := by
  induction R with
  | nil => intro acc _; rfl
  | cons r rs ih =>
    intro acc h
    have hm : reviewIdentifier r ∈ acc.seen := h r (by simp)
    simpa [addReviews, hm] using ih acc (fun x hx => h x (by simp [hx]))

lemma addReviews_fresh (R : List Review) :
    ∀ acc : Accum, (R.map reviewIdentifier).Nodup →
      (∀ r ∈ R, reviewIdentifier r ∉ acc.seen) →
      addReviews acc R =
        (⟨(R.map reviewIdentifier).reverse ++ acc.seen, acc.reviews ++ R⟩, R.length) := by
  induction R with
  | nil => intro acc _ _; simp [addReviews]
  | cons r rs ih =>
    intro acc hnd hfresh
    have hm : reviewIdentifier r ∉ acc.seen := hfresh r (by simp)
    have hnd' : (rs.map reviewIdentifier).Nodup := (List.nodup_cons.mp (by simpa using hnd)).2
    have hhead : reviewIdentifier r ∉ rs.map reviewIdentifier :=
      (List.nodup_cons.mp (by simpa using hnd)).1
    have hfresh' : ∀ x ∈ rs, reviewIdentifier x ∉ (reviewIdentifier r :: acc.seen) := by
      intro x hx
      simp only [List.mem_cons, not_or]
      refine ⟨?_, hfresh x (by simp [hx])⟩
      intro hEq
      exact hhead (hEq ▸ List.mem_map_of_mem reviewIdentifier hx)
    have := ih ⟨reviewIdentifier r :: acc.seen, acc.reviews ++ [r]⟩ hnd' hfresh'
    simp [addReviews, if_neg hm, this, List.append_assoc]

lemma scrollLoopAux_noop (page : Nat → ScrollRound) (ms mc fuel : Nat) (st : LoopState)
    (h : ¬ loopGuard ms mc st) : scrollLoopAux page ms mc fuel st = st := by
  cases fuel <;> simp [scrollLoopAux, h]

lemma scrollLoopAux_stops (page : Nat → ScrollRound) (ms mc : Nat) :
    ∀ (fuel : Nat) (st : LoopState), ms ≤ st.attempts + fuel →
      ¬ loopGuard ms mc (scrollLoopAux page ms mc fuel st) ∨
        (scrollLoopAux page ms mc fuel st).aborted = true := by
  intro fuel
  induction fuel with
  | zero =>
    intro st h
    left
    simp only [scrollLoopAux, loopGuard, not_and]
    omega
  | succ fuel ih =>
    intro st h
    by_cases hg : loopGuard ms mc st
    · cases hs : (page st.attempts).scrollOk with
      | false =>
        right
        simp [scrollLoopAux, hg, hs]
      | true =>
        have hstep : scrollLoopAux page ms mc (fuel + 1) st =
            scrollLoopAux page ms mc fuel
              { acc := (addReviews st.acc (page st.attempts).extracted).1,
                consecutive :=
                  (if (addReviews st.acc (page st.attempts).extracted).2 = 0 then
                    st.consecutive + 1 else 0),
                attempts := st.attempts + 1,
                clicks := st.clicks + (if (page st.attempts).clickable then 1 else 0),
                aborted := false } := by
          simp [scrollLoopAux, hg, hs]
        rw [hstep]
        exact ih _ (by show ms ≤ st.attempts + 1 + fuel; omega)
    · rw [scrollLoopAux_noop page ms mc _ st hg]
      exact Or.inl hg

lemma scrollLoopAux_step_empty (page : Nat → ScrollRound) (ms mc fuel : Nat) (st : LoopState)
    (hg : loopGuard ms mc st) (he : (page st.attempts).extracted = [])
    (hs : (page st.attempts).scrollOk = true) :
    scrollLoopAux page ms mc (fuel + 1) st =
      scrollLoopAux page ms mc fuel
        { st with
          consecutive := st.consecutive + 1,
          attempts := st.attempts + 1,
          clicks := st.clicks + (if (page st.attempts).clickable then 1 else 0),
          aborted := false } := by
  simp [scrollLoopAux, hg, he, hs, addReviews]

lemma scrollLoopAux_allEmpty (page : Nat → ScrollRound) (ms mc : Nat)
    (he : ∀ k, (page k).extracted = []) (hs : ∀ k, (page k).scrollOk = true) :
    ∀ (fuel : Nat) (st : LoopState), ms - st.attempts ≤ fuel →
      (scrollLoopAux page ms mc fuel st).attempts
          = st.attempts + min (ms - st.attempts) (mc - st.consecutive) ∧
        (scrollLoopAux page ms mc fuel st).consecutive
          = st.consecutive + min (ms - st.attempts) (mc - st.consecutive) := by
  intro fuel
  induction fuel with
  | zero =>
    intro st h
    have hmin : min (ms - st.attempts) (mc - st.consecutive) = 0 := by omega
    simp [scrollLoopAux, hmin]
  | succ fuel ih =>
    intro st h
    by_cases hg : loopGuard ms mc st
    · obtain ⟨h1, h2⟩ := hg
      rw [scrollLoopAux_step_empty page ms mc fuel st ⟨h1, h2⟩ (he _) (hs _)]
      obtain ⟨ha, hc⟩ := ih
        { st with
          consecutive := st.consecutive + 1,
          attempts := st.attempts + 1,
          clicks := st.clicks + (if (page st.attempts).clickable then 1 else 0),
          aborted := false }
        (by show ms - (st.attempts + 1) ≤ fuel; omega)
      constructor
      · rw [ha]
        show st.attempts + 1 + min (ms - (st.attempts + 1)) (mc - (st.consecutive + 1))
            = st.attempts + min (ms - st.attempts) (mc - st.consecutive)
        omega
      · rw [hc]
        show st.consecutive + 1 + min (ms - (st.attempts + 1)) (mc - (st.consecutive + 1))
            = st.consecutive + min (ms - st.attempts) (mc - st.consecutive)
        omega
    · rw [scrollLoopAux_noop page ms mc _ st hg]
      simp only [loopGuard, not_and] at hg
      have hmin : min (ms - st.attempts) (mc - st.consecutive) = 0 := by omega
      simp [hmin]

/-- A fake page whose extraction never yields a review: every round of
the scroll loop is a zero-new round. -/
def pageAllEmpty : Nat → ScrollRound := fun _ => ⟨[], true, false, false⟩

/-- C1: the review-collection loop terminates in finitely many rounds
for every combination of budgets (after `maxScroll` fuel steps the
`while` guard is false, or the loop was aborted by the outer exception
handler), and if every round yields zero new reviews and the
consecutive-no-new-rounds budget is 3, the loop stops after exactly 3
rounds (each zero-new round increments the counter and the loop exits
as soon as the counter reaches the budget or the scroll ceiling is
hit). -/
theorem C1_budget_termination :
    (∀ (page : Nat → ScrollRound) (ms mc : Nat),
        ¬ loopGuard ms mc (scrollLoopRun page ms mc) ∨
          (scrollLoopRun page ms mc).aborted = true) ∧
      (∀ (page : Nat → ScrollRound) (ms : Nat), 3 ≤ ms →
        (∀ k, (page k).extracted = []) → (∀ k, (page k).scrollOk = true) →
        (scrollLoopRun page ms 3).attempts = 3 ∧ (scrollLoopRun page ms 3).consecutive = 3) := by
  constructor
  · intro page ms mc
    exact scrollLoopAux_stops page ms mc ms initLoopState (by simp [initLoopState])
  · intro page ms hms he hs
    obtain ⟨ha, hc⟩ := scrollLoopAux_allEmpty page ms 3 he hs ms initLoopState
      (by simp [initLoopState])
    constructor
    · rw [scrollLoopRun, ha]
      show 0 + min (ms - 0) (3 - 0) = 3
      omega
    · rw [scrollLoopRun, hc]
      show 0 + min (ms - 0) (3 - 0) = 3
      omega

/-- C1 witness: the termination and exactly-3-rounds facts at the
concrete all-empty page with budgets 100 and 3. -/
theorem C1_witness :
    (¬ loopGuard 100 3 (scrollLoopRun pageAllEmpty 100 3) ∨
        (scrollLoopRun pageAllEmpty 100 3).aborted = true) ∧
      (scrollLoopRun pageAllEmpty 100 3).attempts = 3 ∧
        (scrollLoopRun pageAllEmpty 100 3).consecutive = 3 :=
  ⟨C1_budget_termination.1 pageAllEmpty 100 3,
   C1_budget_termination.2 pageAllEmpty 100 (by norm_num) (fun _ => rfl) (fun _ => rfl)⟩

def uinfoAsha : UserInfo := ⟨"Asha", none, false, none, none, none⟩

def revDateA : Review :=
  ⟨none, uinfoAsha, 4, "Nice", "Good product", "01/02/2023", 0, false, [], [], []⟩

def revDateB : Review := { revDateA with date := "05/06/2024" }

/-- C2 counterexample: two reviews that agree on author, rating and
body but differ in date get the same dedup identifier and are in fact
deduplicated by the accumulator, so the identity is not the claimed
4-tuple including the date. -/
theorem C2_counterexample :
    reviewIdentifier revDateA = reviewIdentifier revDateB ∧
      (addReviews (addReviews ⟨[], []⟩ [revDateA]).1 [revDateB]).1.reviews = [revDateA] ∧
      specFingerprint revDateA ≠ specFingerprint revDateB := by
  decide

/-- C2 amended: the dedup identity is the string
`username ++ "_" ++ str(rating) ++ "_" ++ first-50-chars(body)`; the
date is not part of it.  Feeding two reviews in sequence drops the
second exactly when the identifier strings are equal. -/
theorem C2_dedup_identity (r1 r2 : Review) :
    (addReviews (addReviews ⟨[], []⟩ [r1]).1 [r2]).1.reviews =
      (if reviewIdentifier r2 = reviewIdentifier r1 then [r1] else [r1, r2]) := by
  by_cases h : reviewIdentifier r2 = reviewIdentifier r1 <;>
    simp [addReviews, h]

/-- C4 counterexample: two batches whose single reviews differ only in
date.  The accumulator keeps one review, but the union of the
spec-described fingerprints (which include the date) has two elements,
so the accumulated size does not equal the size of that union. -/
theorem C4_counterexample :
    (addReviews (addReviews ⟨[], []⟩ [revDateA]).1 [revDateB]).1.reviews.length = 1 ∧
      ({specFingerprint revDateA} ∪ {specFingerprint revDateB} : Finset _).card = 2 := by
  decide

/-- C4 amended: with the fingerprint the code actually uses (the dedup
identifier string, which omits the date), feeding batches R1 then R2
into the accumulator yields exactly one review per distinct
fingerprint — the accumulated size is the size of the union of the two
batches' fingerprint sets — and re-feeding a batch whose fingerprints
are all already present leaves the accumulator unchanged and counts
zero new reviews. -/
theorem C4_dedup_idempotence :
    (∀ R1 R2 : List Review,
        (addReviews (addReviews ⟨[], []⟩ R1).1 R2).1.reviews.length =
          ((R1.map reviewIdentifier).toFinset ∪ (R2.map reviewIdentifier).toFinset).card) ∧
      (∀ (acc : Accum) (R : List Review),
        (∀ r ∈ R, reviewIdentifier r ∈ acc.seen) → addReviews acc R = (acc, 0)) := by
  constructor
  · intro R1 R2
    have hlen := addReviews_len_eq R2 (addReviews ⟨[], []⟩ R1).1
      (addReviews_len_eq R1 ⟨[], []⟩ rfl)
    have hnd := addReviews_seen_nodup R2 (addReviews ⟨[], []⟩ R1).1
      (addReviews_seen_nodup R1 ⟨[], []⟩ (by simp))
    have hset : (addReviews (addReviews ⟨[], []⟩ R1).1 R2).1.seen.toFinset
        = (R1.map reviewIdentifier).toFinset ∪ (R2.map reviewIdentifier).toFinset := by
      ext x
      simp [addReviews_seen_mem]
    calc (addReviews (addReviews ⟨[], []⟩ R1).1 R2).1.reviews.length
        = (addReviews (addReviews ⟨[], []⟩ R1).1 R2).1.seen.length := hlen
      _ = (addReviews (addReviews ⟨[], []⟩ R1).1 R2).1.seen.toFinset.card :=
          (List.toFinset_card_of_nodup hnd).symm
      _ = _ := by rw [hset]
  · intro acc R h
    exact addReviews_stale R acc h

def revW : Review := ⟨none, ⟨"A", none, false, none, none, none⟩, 5, "", "", "", 0, false, [], [], []⟩

def accW : Accum := ⟨[reviewIdentifier revW], [revW]⟩

/-- C4 witness: the idempotence and union-size facts at a concrete
accumulator and batch. -/
theorem C4_witness :
    addReviews accW [revW] = (accW, 0) ∧
      (addReviews (addReviews ⟨[], []⟩ [revW]).1 [revW]).1.reviews.length =
        (([revW].map reviewIdentifier).toFinset ∪ ([revW].map reviewIdentifier).toFinset).card :=
  ⟨C4_dedup_idempotence.2 accW [revW] (by decide),
   C4_dedup_idempotence.1 [revW] [revW]⟩

lemma scrollLoopAux_step (page : Nat → ScrollRound) (ms mc fuel : Nat) (st : LoopState)
    (hg : loopGuard ms mc st) (hs : (page st.attempts).scrollOk = true) :
    scrollLoopAux page ms mc (fuel + 1) st =
      scrollLoopAux page ms mc fuel
        { acc := (addReviews st.acc (page st.attempts).extracted).1,
          consecutive :=
            (if (addReviews st.acc (page st.attempts).extracted).2 = 0 then
              st.consecutive + 1 else 0),
          attempts := st.attempts + 1,
          clicks := st.clicks + (if (page st.attempts).clickable then 1 else 0),
          aborted := false } := by
  simp [scrollLoopAux, hg, hs]

lemma scrollLoopAux_abort (page : Nat → ScrollRound) (ms mc fuel : Nat) (st : LoopState)
    (hg : loopGuard ms mc st) (hs : (page st.attempts).scrollOk = false) :
    scrollLoopAux page ms mc (fuel + 1) st =
      { acc := (addReviews st.acc (page st.attempts).extracted).1,
        consecutive :=
          (if (addReviews st.acc (page st.attempts).extracted).2 = 0 then
            st.consecutive + 1 else 0),
        attempts := st.attempts,
        clicks := st.clicks,
        aborted := true } := by
  simp [scrollLoopAux, hg, hs]

/-- A review used by the fake 5-fresh-reviews-per-round renderer; the
username length makes dedup identifiers injective in `i`. -/
def mkRev (i : Nat) : Review :=
  ⟨none, ⟨⟨List.replicate i 'u'⟩, none, false, none, none, none⟩, 5, "", "", "", 0, false,
    [], [], []⟩

lemma reviewIdentifier_mkRev (i : Nat) :
    (reviewIdentifier (mkRev i)).data = List.replicate i 'u' ++ ['_', '5', '_'] := by
  have h5 : toString (5 : Int) = "5" := rfl
  simp [reviewIdentifier, mkRev, pyPrefix, h5]

lemma reviewIdentifier_mkRev_inj (i j : Nat)
    (h : reviewIdentifier (mkRev i) = reviewIdentifier (mkRev j)) : i = j := by
  have hlen := congrArg (fun s => s.data.length) h
  simp only [reviewIdentifier_mkRev, List.length_append, List.length_replicate] at hlen
  omega

/-- A fake renderer producing 5 fresh reviews per round, indefinitely. -/
def page5 (k : Nat) : ScrollRound :=
  ⟨[mkRev (5 * k), mkRev (5 * k + 1), mkRev (5 * k + 2), mkRev (5 * k + 3), mkRev (5 * k + 4)],
    true, true, false⟩

def seen5 (n : Nat) : List String :=
  ((List.range n).map (fun i => reviewIdentifier (mkRev i))).reverse

/-- State of the scroll loop on `page5` after `k` completed rounds. -/
def st5 (k : Nat) : LoopState :=
  ⟨⟨seen5 (5 * k), (List.range (5 * k)).map mkRev⟩, 0, k, k, false⟩

lemma mem_seen5 (x : String) (n : Nat) :
    x ∈ seen5 n ↔ ∃ i < n, reviewIdentifier (mkRev i) = x := by
  simp [seen5]

lemma page5_step (k fuel : Nat) (hk : k < 100) :
    scrollLoopAux page5 100 8 (fuel + 1) (st5 k) = scrollLoopAux page5 100 8 fuel (st5 (k + 1)) := by
  have hg : loopGuard 100 8 (st5 k) := ⟨by simpa [st5] using hk, by simp [st5]⟩
  have hinj : Function.Injective (fun i => reviewIdentifier (mkRev i)) :=
    fun a b h => reviewIdentifier_mkRev_inj a b h
  have hnd : ((page5 k).extracted.map reviewIdentifier).Nodup := by
    have hmap : (page5 k).extracted.map reviewIdentifier
        = [5 * k, 5 * k + 1, 5 * k + 2, 5 * k + 3, 5 * k + 4].map
            (fun i => reviewIdentifier (mkRev i)) := rfl
    rw [hmap]
    refine List.Nodup.map hinj ?_
    simp [List.nodup_cons]
  have hfresh : ∀ r ∈ (page5 k).extracted, reviewIdentifier r ∉ (st5 k).acc.seen := by
    intro r hr hmem
    rw [show (st5 k).acc.seen = seen5 (5 * k) from rfl, mem_seen5] at hmem
    obtain ⟨i, hi, hEq⟩ := hmem
    simp only [page5, List.mem_cons, List.not_mem_nil, or_false] at hr
    rcases hr with rfl | rfl | rfl | rfl | rfl <;>
      exact absurd (reviewIdentifier_mkRev_inj _ _ hEq) (by omega)
  have hadd := addReviews_fresh (page5 k).extracted (st5 k).acc hnd hfresh
  have hr5 : List.range 5 = [0, 1, 2, 3, 4] := rfl
  have hseen : seen5 (5 * (k + 1))
      = ((page5 k).extracted.map reviewIdentifier).reverse ++ seen5 (5 * k) := by
    rw [show 5 * (k + 1) = 5 * k + 5 from by ring]
    simp [seen5, List.range_add, hr5, page5]
  have hrev : (List.range (5 * (k + 1))).map mkRev
      = (List.range (5 * k)).map mkRev ++ (page5 k).extracted := by
    rw [show 5 * (k + 1) = 5 * k + 5 from by ring]
    simp [List.range_add, hr5, page5]
  have hst : st5 (k + 1) = LoopState.mk
      (Accum.mk (((page5 k).extracted.map reviewIdentifier).reverse ++ seen5 (5 * k))
        ((List.range (5 * k)).map mkRev ++ (page5 k).extracted)) 0 (k + 1) (k + 1) false := by
    simp only [st5]
    rw [hseen, hrev]
  rw [scrollLoopAux_step page5 100 8 fuel (st5 k) hg rfl]
  refine congrArg (scrollLoopAux page5 100 8 fuel) ?_
  rw [show (st5 k).attempts = k from rfl, hadd, hst]
  rfl

lemma page5_run : scrollLoopRun page5 100 8 = st5 100 := by
  have main : ∀ m, m ≤ 100 → scrollLoopAux page5 100 8 m (st5 (100 - m)) = st5 100 := by
    intro m
    induction m with
    | zero => intro _; rfl
    | succ m ih =>
      intro hm
      have hk : 100 - (m + 1) < 100 := by omega
      rw [page5_step (100 - (m + 1)) m hk, show 100 - (m + 1) + 1 = 100 - m from by omega]
      exact ih (by omega)
  have h := main 100 (le_refl 100)
  rw [scrollLoopRun, show initLoopState = st5 (100 - 100) from rfl]
  exact h

lemma page5_reviews :
    scrape_reviews_with_infinite_scroll_driver page5 = (List.range 500).map mkRev := by
  rw [scrape_reviews_with_infinite_scroll_driver, page5_run]
  show (List.range (5 * 100)).map mkRev = (List.range 500).map mkRev
  norm_num

/-- C5 counterexample: on a renderer yielding 5 fresh reviews per
round, the loop does not stop with 23 reviews — there is no
`max_reviews` budget or truncation in the code; it runs to the scroll
ceiling and keeps 500 reviews. -/
theorem C5_counterexample :
    (scrape_reviews_with_infinite_scroll_driver page5).length ≠ 23 := by
  rw [page5_reviews]
  simp

/-- C5 amended: the loop's output is the accumulated reviews in
first-seen (insertion) order with no `max_reviews` truncation at all:
on a renderer producing 5 fresh reviews per round indefinitely it runs
all 100 scroll rounds and returns all 500 reviews, in the order the
rounds produced them. -/
theorem C5_no_truncation :
    scrape_reviews_with_infinite_scroll_driver page5 = (List.range 500).map mkRev ∧
      (scrape_reviews_with_infinite_scroll_driver page5).length = 500 ∧
      (scrollLoopRun page5 100 8).attempts = 100 := by
  refine ⟨page5_reviews, by rw [page5_reviews]; simp, by rw [page5_run]; rfl⟩

/-- A fake renderer that always shows the "no more reviews" indicator
together with a clickable load-more button, and yields no reviews. -/
def pageEnd : Nat → ScrollRound := fun _ => ⟨[], true, true, true⟩

/-- Replaces the end-of-data indicator of every round of a page by an
arbitrary other value, leaving the fields the loop reads unchanged. -/
def setEndIndicator (page : Nat → ScrollRound) (f : Nat → Bool) : Nat → ScrollRound :=
  fun k =>
    { page k with
      endIndicator := f k }

lemma scrollLoopAux_setEndIndicator (page : Nat → ScrollRound) (f : Nat → Bool) (ms mc : Nat) :
    ∀ (fuel : Nat) (st : LoopState),
      scrollLoopAux (setEndIndicator page f) ms mc fuel st = scrollLoopAux page ms mc fuel st := by
  intro fuel
  induction fuel with
  | zero => intro st; rfl
  | succ fuel ih =>
    intro st
    by_cases hg : loopGuard ms mc st
    · cases hs : (page st.attempts).scrollOk with
      | false =>
        rw [scrollLoopAux_abort (setEndIndicator page f) ms mc fuel st hg hs,
          scrollLoopAux_abort page ms mc fuel st hg hs]
        simp [setEndIndicator]
      | true =>
        rw [scrollLoopAux_step (setEndIndicator page f) ms mc fuel st hg hs,
          scrollLoopAux_step page ms mc fuel st hg hs]
        simp only [setEndIndicator]
        exact ih _
    · rw [scrollLoopAux_noop _ ms mc _ st hg, scrollLoopAux_noop _ ms mc _ st hg]

/-- C6 counterexample: with the "no more reviews" indicator present
from round 1 (and a clickable load-more button each round), the loop
does not terminate immediately and does not perform zero clicks: it
runs 8 zero-new rounds and clicks the button 8 times, because the code
has no explicit end-of-data check at all. -/
theorem C6_counterexample :
    (pageEnd 0).endIndicator = true ∧
      (scrollLoopRun pageEnd 100 8).clicks = 8 ∧
      (scrollLoopRun pageEnd 100 8).attempts = 8 := by
  decide

/-- C6 amended: the loop performs no terminal end-of-data check —
its result is independent of the indicator in every round — and with
the indicator present, a clickable button, and no reviews, it still
runs 8 rounds (one click each) before the consecutive-no-new budget
stops it, returning the reviews accumulated so far. -/
theorem C6_no_end_check :
    (∀ (page : Nat → ScrollRound) (f : Nat → Bool) (ms mc : Nat),
        scrollLoopRun (setEndIndicator page f) ms mc = scrollLoopRun page ms mc) ∧
      (scrollLoopRun pageEnd 100 8).clicks = 8 ∧
      (scrollLoopRun pageEnd 100 8).acc.reviews = [] := by
  refine ⟨fun page f ms mc => ?_, by decide, by decide⟩
  rw [scrollLoopRun, scrollLoopRun, scrollLoopAux_setEndIndicator]

/-- A fake renderer whose scroll script raises on round 0 (e.g. the
session died) and which would produce a review from round 1 on. -/
def pageCrash : Nat → ScrollRound := fun k =>
  if k = 0 then ⟨[], false, false, false⟩ else ⟨[mkRev 0], true, false, false⟩

/-- The same renderer without the round-0 exception. -/
def pageCont : Nat → ScrollRound := fun k =>
  if k = 0 then ⟨[], true, false, false⟩ else ⟨[mkRev 0], true, false, false⟩

/-- C7 counterexample: an exception in round 0's scroll step is not
treated as "no new content this round": the loop aborts with the
reviews accumulated so far (here none) instead of continuing, whereas
the same page without the exception goes on to collect the round-1
review.  Nothing propagates to the caller: the aborted run still
returns its accumulated list. -/
theorem C7_counterexample :
    (scrollLoopRun pageCrash 100 8).aborted = true ∧
      (scrollLoopRun pageCrash 100 8).acc.reviews = [] ∧
      (scrollLoopRun pageCont 100 8).acc.reviews = [mkRev 0] := by
  decide

/-- C7 amended: an exception anywhere in a round outside the
per-selector click scan (here: the scroll script of round 0) ends the
whole loop, which returns the reviews accumulated so far — including
the round's own extraction, which happens before the scroll — and no
exception (session death included) propagates to the caller: the
function still returns the accumulated list, with the abort recorded. -/
theorem C7_exception_ends_loop (page : Nat → ScrollRound) (ms mc : Nat)
    (hms : 0 < ms) (hmc : 0 < mc) (h0 : (page 0).scrollOk = false) :
    (scrollLoopRun page ms mc).aborted = true ∧
      (scrollLoopRun page ms mc).acc.reviews
        = (addReviews ⟨[], []⟩ (page 0).extracted).1.reviews := by
  obtain ⟨m, rfl⟩ : ∃ m, ms = m + 1 := ⟨ms - 1, by omega⟩
  rw [scrollLoopRun,
    scrollLoopAux_abort page (m + 1) mc m initLoopState
      ⟨by show (0 : Nat) < m + 1; omega, by show (0 : Nat) < mc; omega⟩ h0]
  exact ⟨rfl, rfl⟩

/-- C7 witness: the abort behaviour at the concrete crashing page. -/
theorem C7_witness :
    (scrollLoopRun pageCrash 100 8).aborted = true ∧
      (scrollLoopRun pageCrash 100 8).acc.reviews
        = (addReviews ⟨[], []⟩ (pageCrash 0).extracted).1.reviews :=
  C7_exception_ends_loop pageCrash 100 8 (by norm_num) (by norm_num) rfl

/-- Decoded JSON values, as produced by `json.loads`.  Numbers carry
only the integer fragment: the claims under analysis never exercise
float payloads, and CPython floats are out of scope for the model. -/
inductive Json where
  | null : Json
  | bool (b : Bool) : Json
  | num (n : Int) : Json
  | str (s : String) : Json
  | arr (xs : List Json) : Json
  | obj (kvs : List (String × Json)) : Json

def isJsonWs (c : Char) : Bool :=
  (c == ' ') || (c == '\t') || (c == '\n') || (c == '\r')

def skipWs (s : List Char) : List Char := s.dropWhile isJsonWs

/-- Longest leading run of decimal digits and the remainder. -/
def takeDigits : List Char → List Char × List Char
  | [] => ([], [])
  | c :: rest =>
    if c.isDigit then
      let p := takeDigits rest
      (c :: p.1, p.2)
    else ([], c :: rest)

def digitsToNat (ds : List Char) : Nat :=
  ds.foldl (fun a c => a * 10 + (c.toNat - 48)) 0

/-- JSON string body after the opening quote: plain characters, the
simple escapes, and strict-mode rejection of raw control characters.
The `uXXXX` escape is outside the modelled fragment (the parser fails
there; no theorem exercises it). -/
def parseStringBody : List Char → List Char → Option (List Char × List Char)
  | [], _ => none
  | '"' :: rest, acc => some (acc.reverse, rest)
  | '\\' :: e :: rest2, acc =>
    if e = '"' then parseStringBody rest2 ('"' :: acc)
    else if e = '\\' then parseStringBody rest2 ('\\' :: acc)
    else if e = '/' then parseStringBody rest2 ('/' :: acc)
    else if e = 'n' then parseStringBody rest2 ('\n' :: acc)
    else if e = 't' then parseStringBody rest2 ('\t' :: acc)
    else if e = 'r' then parseStringBody rest2 ('\r' :: acc)
    else if e = 'b' then parseStringBody rest2 ('\x08' :: acc)
    else if e = 'f' then parseStringBody rest2 ('\x0c' :: acc)
    else none
  | '\\' :: [], _ => none
  | c :: rest, acc => if c.toNat < 32 then none else parseStringBody rest (c :: acc)

/-- JSON integer literal; a following `.`, `e` or `E` (a float) is
outside the modelled fragment and fails. -/
def parseNumber (s : List Char) : Option (Json × List Char) :=
  match s with
  | '-' :: rest =>
    (match takeDigits rest with
     | ([], _) => none
     | (ds, c :: rest2) =>
       if c = '.' ∨ c = 'e' ∨ c = 'E' then none
       else some (.num (-(digitsToNat ds : Int)), c :: rest2)
     | (ds, []) => some (.num (-(digitsToNat ds : Int)), []))
  | _ =>
    (match takeDigits s with
     | ([], _) => none
     | (ds, c :: rest2) =>
       if c = '.' ∨ c = 'e' ∨ c = 'E' then none
       else some (.num (digitsToNat ds : Int), c :: rest2)
     | (ds, []) => some (.num (digitsToNat ds : Int), []))

/-- Array elements after the opening bracket, with the value parser
passed in. -/
def parseItems (pv : List Char → Option (Json × List Char)) :
    Nat → List Char → List Json → Option (Json × List Char)
  | 0, _, _ => none
  | fuel + 1, s, acc =>
    match pv s with
    | none => none
    | some (v, rest) =>
      match skipWs rest with
      | ',' :: rest2 => parseItems pv fuel rest2 (v :: acc)
      | ']' :: rest2 => some (.arr (v :: acc).reverse, rest2)
      | _ => none

/-- Object members after the opening brace, with the value parser
passed in. -/
def parseMembers (pv : List Char → Option (Json × List Char)) :
    Nat → List Char → List (String × Json) → Option (Json × List Char)
  | 0, _, _ => none
  | fuel + 1, s, acc =>
    match skipWs s with
    | '"' :: rest =>
      (match parseStringBody rest [] with
       | none => none
       | some (key, rest2) =>
         match skipWs rest2 with
         | ':' :: rest3 =>
           (match pv rest3 with
            | none => none
            | some (v, rest4) =>
              match skipWs rest4 with
              | ',' :: rest5 => parseMembers pv fuel rest5 ((⟨key⟩, v) :: acc)
              | '}' :: rest5 => some (.obj (((⟨key⟩ : String), v) :: acc).reverse, rest5)
              | _ => none)
         | _ => none)
    | _ => none

/-- Fueled recursive-descent JSON value parser (the integer fragment of
`json.loads`). -/
def parseValue : Nat → List Char → Option (Json × List Char)
  | 0, _ => none
  | fuel + 1, s =>
    match skipWs s with
    | [] => none
    | c :: rest =>
      if c = '"' then
        (match parseStringBody rest [] with
         | some (cs, rest2) => some (.str ⟨cs⟩, rest2)
         | none => none)
      else if c = '{' then
        (match skipWs rest with
         | '}' :: rest2 => some (.obj [], rest2)
         | _ => parseMembers (parseValue fuel) fuel rest [])
      else if c = '[' then
        (match skipWs rest with
         | ']' :: rest2 => some (.arr [], rest2)
         | _ => parseItems (parseValue fuel) fuel rest [])
      else if c = 't' then
        (match rest with
         | 'r' :: 'u' :: 'e' :: rest2 => some (.bool true, rest2)
         | _ => none)
      else if c = 'f' then
        (match rest with
         | 'a' :: 'l' :: 's' :: 'e' :: rest2 => some (.bool false, rest2)
         | _ => none)
      else if c = 'n' then
        (match rest with
         | 'u' :: 'l' :: 'l' :: rest2 => some (.null, rest2)
         | _ => none)
      else if c = '-' ∨ c.isDigit then parseNumber (c :: rest)
      else none

/-- Models `json.loads` (integer fragment): the whole input must be
one value plus trailing whitespace, otherwise it raises —
modelled as `none`. -/
def jsonLoads (s : List Char) : Option Json :=
  match parseValue (2 * s.length + 2) s with
  | some (j, rest) => if skipWs rest = [] then some j else none
  | none => none

/-- Python `str.find(pat, start)`: first index at or after `start`
where `pat` occurs, `none` for `-1`. -/
def pyFind (s pat : List Char) (start : Nat) : Option Nat :=
  (List.range (s.length + 1)).find? (fun i => decide (start ≤ i) && pat.isPrefixOf (s.drop i))

/-- Python slice-index clamping for `s[a:b]`. -/
def pyIdx (n : Nat) (i : Int) : Nat :=
  if i < 0 then (n + i).toNat else min i.toNat n

def pySlice (s : List Char) (a b : Int) : List Char :=
  (s.take (pyIdx s.length b)).drop (pyIdx s.length a)

/-- The whitespace stripped by Python `str.strip()`. -/
def isPySpace (c : Char) : Bool :=
  (c == ' ') || (c == '\t') || (c == '\n') || (c == '\r') || (c == '\x0b') || (c == '\x0c')

def pyLStrip (p : Char → Bool) (s : List Char) : List Char := s.dropWhile p

def pyRStrip (p : Char → Bool) (s : List Char) : List Char := (s.reverse.dropWhile p).reverse

def pyStrip (p : Char → Bool) (s : List Char) : List Char := pyRStrip p (pyLStrip p s)

/-- Embeds the brace-counting loop of `_extract_json_data_safely`
(lines 1162-1188): walks the string tracking brace depth, string state
and escapes, and returns `actual_end` (0 when balance is never
reached). -/
def braceScanAux : List Char → Nat → Int → Bool → Bool → Nat
  | [], _, _, _, _ => 0
  | c :: rest, i, bc, inStr, esc =>
    if esc then braceScanAux rest (i + 1) bc inStr false
    else if c = '\\' then braceScanAux rest (i + 1) bc inStr true
    else if c = '"' then braceScanAux rest (i + 1) bc (!inStr) esc
    else if !inStr then
      (if c = '{' then braceScanAux rest (i + 1) (bc + 1) inStr esc
       else if c = '}' then
        (if bc - 1 = 0 then i + 1 else braceScanAux rest (i + 1) (bc - 1) inStr esc)
       else braceScanAux rest (i + 1) bc inStr esc)
    else braceScanAux rest (i + 1) bc inStr esc

def markerAppData : List Char := "window.__APP_DATA__".toList
def markerDataLayer : List Char := "window.dataLayer".toList
def markerScriptClose : List Char := "</script>".toList
def markerWindowDot : List Char := "window.".toList
def markerNlScript : List Char := "\n<script".toList
def markerNlWindow : List Char := "\nwindow.".toList

/-- Embeds `_extract_json_data_safely` (lines 1129-1200): find the
start marker, pick the earliest of several end markers (or
`len - 10`), slice and strip, truncate to the brace-balanced prefix if
the text starts with a brace, and decode; every failure path returns
the empty dict, exactly as the Python `except` arms do. -/
def extract_json_data_safely (s marker : List Char) : Json :=
  match pyFind s marker 0 with
  | none => Json.obj []
  | some idx =>
    let start := idx + marker.length
    let possibleEnds : List (Option Nat) :=
      [pyFind s markerAppData start, pyFind s markerDataLayer start,
       pyFind s markerScriptClose start, pyFind s markerWindowDot (start + 100),
       pyFind s markerNlScript start, pyFind s markerNlWindow (start + 100)]
    let validEnds := (possibleEnds.filterMap id).filter (fun e => start < e)
    let endPos : Int :=
      match validEnds.min? with
      | some m => (m : Int)
      | none => (s.length : Int) - 10
    let js0 := pyStrip isPySpace (pySlice s (start : Int) endPos)
    let js1 := pyStrip isPySpace (pyRStrip (fun c => c == ';') js0)
    let js2 :=
      if js1.head? = some '{' then
        (let ae := braceScanAux js1 0 0 false false
         if 0 < ae then js1.take ae else js1)
      else js1
    match jsonLoads js2 with
    | some j => j
    | none => Json.obj []

def Json.isObj : Json → Bool
  | .obj _ => true
  | _ => false

/-- The start marker `_extract_json_data_safely` is called with at
lines 1106 and 2514. -/
def markerPreloaded : List Char := "window.__PRELOADED_STATE__ = ".toList

/-- A brace-balanced embedded JSON object used in the C9 scenarios. -/
def exObj : List Char := ['{', '"', 'a', '"', ':', '1', '}']

lemma pyFind_self (pat t : List Char) : pyFind (pat ++ t) pat 0 = some 0 := by
  rw [pyFind, List.range_succ_eq_map]
  apply List.find?_cons_of_pos
  simp [ List.isPrefixOf_iff_prefix]

lemma pyFind_none_of_head (s pat : List Char) (c : Char) (a b : Nat)
    (hhead : pat.head? = some c) (hab : a ≤ b) (hc : ∀ x ∈ s.drop a, x ≠ c) :
    pyFind s pat b = none := by
  cases pat with
  | nil => simp at hhead
  | cons d rest =>
    have hd : d = c := by simpa using hhead
    subst hd
    rw [pyFind]
    refine List.find?_eq_none.mpr ?_
    intro i hi
    simp only [Bool.and_eq_true, decide_eq_true_eq, not_and]
    intro hbi hpre
    have hpre2 : (d :: rest) <+: s.drop i := List.isPrefixOf_iff_prefix.mp hpre
    obtain ⟨t2, ht⟩ := hpre2
    have hmem : d ∈ s.drop i := by rw [← ht]; simp
    have hsub : s.drop i ⊆ s.drop a := by
      rw [show i = a + (i - a) from by omega, ← List.drop_drop]
      exact List.drop_subset _ _
    exact hc d (hsub hmem) rfl

lemma pyLStrip_objx (p : Char → Bool) (t : List Char) (h : p '{' = false) :
    pyLStrip p (exObj ++ t) = exObj ++ t := by
  simp [pyLStrip, exObj, List.dropWhile_cons, h]

lemma pyRStrip_objx (p : Char → Bool) (k : Nat) (hx : p 'x' = false) (hbr : p '}' = false) :
    pyRStrip p (exObj ++ List.replicate k 'x') = exObj ++ List.replicate k 'x' := by
  rw [pyRStrip, List.reverse_append, List.reverse_replicate]
  cases k with
  | zero =>
    rw [show List.replicate 0 'x' = [] from rfl, List.nil_append,
      show exObj.reverse = ['}', '1', ':', '"', 'a', '"', '{'] from rfl]
    simp [List.dropWhile_cons, hbr, exObj]
  | succ m =>
    rw [show List.replicate (m + 1) 'x' = 'x' :: List.replicate m 'x' from rfl, List.cons_append]
    simp [List.dropWhile_cons, hx, List.reverse_append, List.reverse_replicate]
    rw [← List.replicate_succ', List.replicate_succ]

lemma pyStrip_objx (p : Char → Bool) (k : Nat) (hbrace : p '{' = false) (hx : p 'x' = false)
    (hbr : p '}' = false) :
    pyStrip p (exObj ++ List.replicate k 'x') = exObj ++ List.replicate k 'x' := by
  rw [pyStrip, pyLStrip_objx p _ hbrace, pyRStrip_objx p k hx hbr]

/-- C9 counterexample: the safe JSON extractor is not dict-valued and
not resilient to arbitrary trailing content.  With the marker followed
by the valid non-object document `42` (and ten trailing spaces) it
returns the integer 42, not a dict; with the marker followed by a
brace-balanced object and only two characters of trailing garbage, the
`len - 10` end heuristic cuts into the object and the extractor
returns the empty dict although the balanced prefix decodes fine. -/
theorem C9_counterexample :
    Json.isObj (extract_json_data_safely ("M = 42          ".toList) ("M = ".toList)) = false ∧
      extract_json_data_safely ("M = ".toList ++ (exObj ++ "xy".toList)) ("M = ".toList)
        = Json.obj [] ∧
      jsonLoads exObj = some (Json.obj [("a", Json.num 1)]) ∧
      Json.obj ([] : List (String × Json)) ≠ Json.obj [("a", Json.num 1)] := by
  refine ⟨rfl, rfl, rfl, ?_⟩
  simp

/-- C9 amended: the extractor is total (every failure path yields the
empty dict rather than an exception), but it may return a non-dict
value, and brace-balanced prefix recovery needs the trailing content
to survive the end heuristics: when the marker is followed by a
brace-balanced object and at least 10 trailing characters containing
no end-marker text, the decoded balanced prefix object is returned no
matter how much trailing garbage follows. -/
theorem C9_extractor_resilience (k : Nat) :
    extract_json_data_safely
        (markerPreloaded ++ (exObj ++ List.replicate (10 + k) 'x')) markerPreloaded
      = Json.obj [("a", Json.num 1)] := by
  set s := markerPreloaded ++ (exObj ++ List.replicate (10 + k) 'x') with hs
  have hfind : pyFind s markerPreloaded 0 = some 0 := pyFind_self _ _
  have hml : markerPreloaded.length = 29 := rfl
  have hlen : s.length = 46 + k := by
    rw [hs]
    simp only [List.length_append, List.length_replicate, hml,
      show exObj.length = 7 from rfl]
    omega
  have hdrop29 : s.drop 29 = exObj ++ List.replicate (10 + k) 'x' := by
    rw [hs, show (29 : Nat) = markerPreloaded.length from rfl, List.drop_left]
  have hO : ∀ y ∈ exObj, y ≠ 'w' ∧ y ≠ '<' ∧ y ≠ '\n' := by decide
  have hchars : ∀ x ∈ s.drop 29, x ≠ 'w' ∧ x ≠ '<' ∧ x ≠ '\n' := by
    intro x hx
    rw [hdrop29] at hx
    rcases List.mem_append.mp hx with h | h
    · exact hO x h
    · have := List.eq_of_mem_replicate h
      subst this; decide
  have hW : ∀ x ∈ s.drop 29, x ≠ 'w' := fun x hx => (hchars x hx).1
  have hLt : ∀ x ∈ s.drop 29, x ≠ '<' := fun x hx => (hchars x hx).2.1
  have hNl : ∀ x ∈ s.drop 29, x ≠ '\n' := fun x hx => (hchars x hx).2.2
  have e1 : pyFind s markerAppData 29 = none :=
    pyFind_none_of_head s markerAppData 'w' 29 29 rfl le_rfl hW
  have e2 : pyFind s markerDataLayer 29 = none :=
    pyFind_none_of_head s markerDataLayer 'w' 29 29 rfl le_rfl hW
  have e3 : pyFind s markerScriptClose 29 = none :=
    pyFind_none_of_head s markerScriptClose '<' 29 29 rfl le_rfl hLt
  have e4 : pyFind s markerWindowDot 129 = none :=
    pyFind_none_of_head s markerWindowDot 'w' 29 129 rfl (by omega) hW
  have e5 : pyFind s markerNlScript 29 = none :=
    pyFind_none_of_head s markerNlScript '\n' 29 29 rfl le_rfl hNl
  have e6 : pyFind s markerNlWindow 129 = none :=
    pyFind_none_of_head s markerNlWindow '\n' 29 129 rfl (by omega) hNl
  have hslice : pySlice s ((29 : Nat) : Int) (((46 + k : Nat) : Int) - 10)
      = exObj ++ List.replicate k 'x' := by
    have hb : pyIdx s.length (((46 + k : Nat) : Int) - 10) = 36 + k := by
      have hcond : ¬ ((((46 + k : Nat) : Int) - 10) < 0) := by omega
      unfold pyIdx
      rw [if_neg hcond, hlen,
        show ((((46 + k : Nat) : Int) - 10)).toNat = 36 + k from by omega]
      omega
    have ha : pyIdx s.length ((29 : Nat) : Int) = 29 := by
      have hcond : ¬ (((29 : Nat) : Int) < 0) := by omega
      unfold pyIdx
      rw [if_neg hcond, hlen,
        show (((29 : Nat) : Int)).toNat = 29 from by omega]
      omega
    rw [pySlice, hb, ha, hs, List.take_append_eq_append_take,
      List.take_of_length_le (by rw [hml]; omega),
      show 36 + k - markerPreloaded.length = 7 + k from by rw [hml]; omega,
      List.take_append_eq_append_take,
      List.take_of_length_le (by show exObj.length ≤ 7 + k; rw [show exObj.length = 7 from rfl]; omega),
      show 7 + k - exObj.length = k from by simp [exObj],
      List.take_replicate, show min k (10 + k) = k from by omega,
      show (29 : Nat) = markerPreloaded.length from rfl, List.drop_left]
  have hstrip1 : pyStrip isPySpace (exObj ++ List.replicate k 'x')
      = exObj ++ List.replicate k 'x' := pyStrip_objx _ k rfl rfl rfl
  have hstrip2 : pyRStrip (fun c => c == ';') (exObj ++ List.replicate k 'x')
      = exObj ++ List.replicate k 'x' := pyRStrip_objx _ k rfl rfl
  have hhead : (exObj ++ List.replicate k 'x').head? = some '{' := rfl
  have hscan : braceScanAux (exObj ++ List.replicate k 'x') 0 0 false false = 7 := by
    show braceScanAux
      ('{' :: ('"' :: 'a' :: '"' :: ':' :: '1' :: '}' :: List.replicate k 'x')) 0 0 false false = 7
    simp [braceScanAux]
  have htake : (exObj ++ List.replicate k 'x').take 7 = exObj := by
    rw [List.take_append_eq_append_take, show (7 : Nat) - exObj.length = 0 from rfl,
      show exObj.take 7 = exObj from rfl]
    simp
  have hload : jsonLoads exObj = some (Json.obj [("a", Json.num 1)]) := rfl
  rw [extract_json_data_safely, hfind]
  simp only [hml, Nat.zero_add, hlen, e1, e2, e3, e4, e5, e6]
  simp only [List.filterMap, Option.bind, List.filter, List.min?]
  rw [hslice, hstrip1, hstrip2, hstrip1]
  simp [hhead, hscan, htake, hload]

/-- Truthiness of a decoded JSON value, as Python `bool()` sees it. -/
def pyTruthy : Json → Bool
  | .null => false
  | .bool b => b
  | .num n => n != 0
  | .str s => s != ""
  | .arr xs => !xs.isEmpty
  | .obj kvs => !kvs.isEmpty

/-- Python `int(x)` on a decoded scalar JSON value: exact on ints,
bools and well-formed integer strings; `none` models the raised
`ValueError`/`TypeError` that the caller's `except` turns into a
`None` result. -/
def pyIntOfChars (s : List Char) : Option Int :=
  match pyStrip isPySpace s with
  | '-' :: ds => if !ds.isEmpty && ds.all (·.isDigit) then some (-(digitsToNat ds : Int)) else none
  | '+' :: ds => if !ds.isEmpty && ds.all (·.isDigit) then some ((digitsToNat ds : Int)) else none
  | ds => if !ds.isEmpty && ds.all (·.isDigit) then some ((digitsToNat ds : Int)) else none

def pyIntJson : Json → Option Int
  | .num n => some n
  | .bool b => some (if b then 1 else 0)
  | .str s => pyIntOfChars s.data
  | _ => none

/-- Renders a decoded scalar JSON value the way `str()` and f-strings
do.  The source stores some of these values unrendered and stringifies
them later; rendering at parse time yields the same strings downstream.
Container values in scalar positions are outside the modelled fragment. -/
def pyStrScalar : Json → Option String
  | .null => some "None"
  | .bool true => some "True"
  | .bool false => some "False"
  | .num n => some (toString n)
  | .str s => some s
  | _ => none

/-- The image-list filter at lines 2556-2560:
`isinstance(img_url, str) and img_url.strip()`. -/
def jImages : Json → List String
  | .arr xs => xs.filterMap (fun j =>
      match j with
      | .str s => if !(pyStrip isPySpace s.data).isEmpty then some s else none
      | _ => none)
  | _ => []

/-- Embeds `_parse_review_from_json` (lines 2532-2588): every field is
a `dict.get` with a default and no validation is applied; the only
`None` results come from the `int()` conversions raising (and, in this
embedding, from payloads outside the modelled scalar fragment). -/
def parse_review_from_json (d : Json) : Option Review :=
  match d with
  | .obj kvs =>
    let get : String → Json → Json := fun k dflt => (kvs.lookup k).getD dflt
    match pyIntJson (get "rating" (.num 0)), pyIntJson (get "likeCount" (.num 0)),
      pyStrScalar (get "name" (.str "Anonymous")), pyStrScalar (get "title" (.str "")),
      pyStrScalar (get "description" (.str "")),
      pyStrScalar ((kvs.lookup "createdOn").getD (get "createdOnText" (.str ""))),
      pyStrScalar (get "id" (.str "")) with
    | some rating, some likeCount, some nm, some title, some content, some date, some rid =>
      some { review_id := some rid,
             user_info := ⟨nm, none, pyTruthy (get "isBuyer" (.bool false)), none, none, none⟩,
             rating := rating, title := title, content := content, date := date,
             helpful_count := likeCount,
             verified_purchase := pyTruthy (get "isBuyer" (.bool false)),
             images := jImages (get "images" (.arr [])), pros := [], cons := [] }
    | _, _, _, _, _, _, _ => none
  | _ => none

def containsSub (s pat : List Char) : Bool := (pyFind s pat 0).isSome

/-- Models the `re.sub` Read-More cleanup at line 2310: everything from
the leftmost `...` that is followed by a case-insensitive `Read More`
is replaced by `...`.  The regex's no-newline and end-anchor details
are not modelled; no theorem depends on them. -/
def cleanupReadMore (s : String) : String :=
  let cs := s.data
  match (List.range cs.length).find? (fun i =>
      ("...".toList).isPrefixOf (cs.drop i) &&
        containsSub ((cs.drop (i + 3)).map Char.toLower) ("read more".toList)) with
  | some i => ⟨cs.take i ++ "...".toList⟩
  | none => s

/-- First match of the regex `(\d+\.?\d*)`, as a rational (the source
value is a CPython float built from this decimal literal). -/
def findFirstNumber : List Char → Option Rat
  | [] => none
  | c :: rest =>
    if c.isDigit then
      let p := takeDigits (c :: rest)
      let intPart : Rat := (digitsToNat p.1 : Nat)
      match p.2 with
      | '.' :: rest2 =>
        let q := takeDigits rest2
        some (intPart + (digitsToNat q.1 : Rat) / ((10 : Rat) ^ q.1.length))
      | _ => some intPart
    else findFirstNumber rest

/-- Embeds `_extract_rating` (lines 2767-2775). -/
def extract_rating (s : String) : Rat :=
  match findFirstNumber s.data with
  | some q => q
  | none => 0

def findFirstDigits : List Char → Option Nat
  | [] => none
  | c :: rest =>
    if c.isDigit then some (digitsToNat (takeDigits (c :: rest)).1) else findFirstDigits rest

/-- Embeds `_extract_number` (lines 2777-2785): commas removed, first
digit run, default 0. -/
def extract_number (s : String) : Int :=
  match findFirstDigits (s.data.filter (fun c => c != ',')) with
  | some n => (n : Int)
  | none => 0

/-- Python `int()` truncation toward zero on a nonnegative-or-negative
rational. -/
def pyIntOfRat (q : Rat) : Int := if q < 0 then -((-q).floor) else q.floor

/-- Inputs of `_parse_review_from_reviews_page_semantic` (lines
2217-2385) after the DOM interactions: the username-method results in
order (a failed or raising method yields ""), the float rating value
computed by the star/fallback extraction at lines 2245-2271, the title
and content candidate texts, and the directly-extracted fields.  The
DOM scanning itself is not re-modelled; the claim concerns the
acceptance gate at line 2358 and the record construction. -/
structure SemanticInput where
  usernameCandidates : List String
  ratingValue : Rat
  titleCandidates : List String
  contentCandidates : List String
  date : String
  helpfulCount : Int
  verifiedPurchase : Bool
  images : List String

/-- Embeds `_parse_review_from_reviews_page_semantic`: candidate
selection with the source's length filters, the `strip('"').strip()`
title cleanup, the Read-More content cleanup, the acceptance gate
`username and (content or title) and rating > 0`, and the final
`int(rating)` conversion. -/
def parse_review_from_reviews_page_semantic (inp : SemanticInput) : Option Review :=
  let username := (inp.usernameCandidates.find?
    (fun s => s != "" && decide (1 < s.length) && decide (s.length < 50))).getD "Anonymous"
  let title :=
    match inp.titleCandidates.find? (fun s => decide (3 < s.length)) with
    | some t => (⟨pyStrip isPySpace (pyStrip (fun c => c == '"') t.data)⟩ : String)
    | none => ""
  let content :=
    match inp.contentCandidates.find? (fun s => decide (10 < s.length)) with
    | some c => cleanupReadMore c
    | none => ""
  if username ≠ "" ∧ (content ≠ "" ∨ title ≠ "") ∧ 0 < inp.ratingValue then
    some { review_id := none,
           user_info := ⟨username, none, inp.verifiedPurchase, none, none, none⟩,
           rating := pyIntOfRat inp.ratingValue,
           title := title, content := content, date := inp.date,
           helpful_count := inp.helpfulCount, verified_purchase := inp.verifiedPurchase,
           images := inp.images, pros := [], cons := [] }
  else none

/-- Inputs of `_parse_review` (lines 2647-2734) after the selector
lookups: each `Option` is the first nonempty text the selector list
found (`none` when nothing matched, so the source default applies). -/
structure GenericInput where
  usernameText : Option String
  ratingText : Option String
  titleText : Option String
  contentText : Option String
  dateText : Option String
  helpfulText : Option String
  verifiedPresent : Bool
  images : List String

/-- Embeds `_parse_review`: no acceptance gate at all — a record is
always produced, with `username` defaulting to "Anonymous" and
`rating` to 0.  The source stores the extracted rating as a float; the
typed record holds its truncation, and only the integer-valued cases
are exercised by the theorems. -/
def parse_review (inp : GenericInput) : Option Review :=
  some { review_id := none,
         user_info := ⟨inp.usernameText.getD "Anonymous", none, inp.verifiedPresent,
           none, none, none⟩,
         rating := pyIntOfRat (match inp.ratingText with
           | some t => extract_rating t
           | none => 0),
         title := inp.titleText.getD "",
         content := inp.contentText.getD "",
         date := inp.dateText.getD "",
         helpful_count := extract_number (inp.helpfulText.getD "0"),
         verified_purchase := inp.verifiedPresent,
         images := inp.images, pros := [], cons := [] }

/-- The record `_parse_review_from_json` produces from an empty JSON
payload: every field defaulted, nothing validated. -/
def anonReview : Review :=
  ⟨some "", ⟨"Anonymous", none, false, none, none, none⟩, 0, "", "", "", 0, false, [], [], []⟩

/-- The record `_parse_review` produces when no selector matches. -/
def anonGenericReview : Review :=
  ⟨none, ⟨"Anonymous", none, false, none, none, none⟩, 0, "", "", "", 0, false, [], [], []⟩

/-- A page element whose username methods all fail but which carries a
rating and content: the semantic parser accepts it with author
"Anonymous". -/
def semAnonInp : SemanticInput :=
  ⟨[], 5, [], ["this content is long enough!!"], "", 0, false, []⟩

/-- C3 counterexample: `_parse_review_from_json` applies no validation
at all — on an empty JSON payload it emits a review with rating 0,
empty title and body, and author "Anonymous", violating all three
claimed acceptance conditions at once. -/
theorem C3_counterexample :
    parse_review_from_json (Json.obj []) = some anonReview ∧
      anonReview.rating = 0 ∧ anonReview.title = "" ∧ anonReview.content = "" ∧
      anonReview.user_info.username = "Anonymous" :=
  ⟨rfl, rfl, rfl, rfl, rfl⟩

/-- C3 amended: only the semantic reviews-page parser validates, and
only partially: a review it emits has a positive extracted rating and
a nonempty body-or-title, but its author may still be "Anonymous"; the
JSON parse path and the generic HTML parse path validate nothing and
emit fully-defaulted records. -/
theorem C3_validation :
    (∀ (inp : SemanticInput) (r : Review),
        parse_review_from_reviews_page_semantic inp = some r →
          0 < inp.ratingValue ∧ (r.content ≠ "" ∨ r.title ≠ "")) ∧
      parse_review_from_json (Json.obj []) = some anonReview ∧
      parse_review ⟨none, none, none, none, none, none, false, []⟩ = some anonGenericReview ∧
      (parse_review_from_reviews_page_semantic semAnonInp).map (fun r => r.user_info.username)
        = some "Anonymous" := by
  refine ⟨?_, rfl, rfl, rfl⟩
  intro inp r h
  simp only [parse_review_from_reviews_page_semantic] at h
  split at h
  case isTrue hc =>
    rw [Option.some.injEq] at h
    subst h
    exact ⟨hc.2.2, hc.2.1⟩
  case isFalse hc =>
    exact Option.noConfusion h

def semInp : SemanticInput :=
  ⟨["Ravi K"], 4, [], ["a sufficiently long content here"], "2023", 2, true, []⟩

def semRev : Review :=
  ⟨none, ⟨"Ravi K", none, true, none, none, none⟩, 4, "", "a sufficiently long content here",
    "2023", 2, true, [], [], []⟩

/-- C3 witness: the semantic-path guarantee at a concrete accepted
element. -/
theorem C3_witness :
    0 < semInp.ratingValue ∧ (semRev.content ≠ "" ∨ semRev.title ≠ "") :=
  C3_validation.1 semInp semRev (by rfl)

/-- Embeds `_extract_reviews_from_current_reviews_page_driver` (lines
2095-2215): whatever elements the selector cascade found, only the
first 50 are parsed (line 2207), each through the semantic parser. -/
def extract_reviews_from_current_reviews_page_driver (elems : List SemanticInput) :
    List Review :=
  (elems.take 50).filterMap parse_review_from_reviews_page_semantic

/-- Embeds `_extract_reviews_from_html` (lines 2590-2617): the first
selector with a nonempty hit list wins and only its first 20 elements
are parsed. -/
def extract_reviews_from_html (selectorHits : List (List GenericInput)) : List Review :=
  match selectorHits.find? (fun l => !l.isEmpty) with
  | some elems => (elems.take 20).filterMap parse_review
  | none => []

/-- Embeds `_extract_reviews_from_current_page_driver` (lines
2454-2486): the first script whose embedded-JSON extraction yields a
nonempty batch wins, otherwise the HTML fallback runs; the result is
truncated to 50 (line 2486). -/
def extract_reviews_from_current_page_driver (scriptResults : List (List Review))
    (selectorHits : List (List GenericInput)) : List Review :=
  let fromJson := (scriptResults.find? (fun l => !l.isEmpty)).getD []
  let reviews := if fromJson.isEmpty then extract_reviews_from_html selectorHits else fromJson
  reviews.take 50

/-- C10: the fallback extraction from the current product page returns
at most 50 reviews regardless of how many embedded-JSON reviews or
review elements the page contains, and the dedicated reviews-page
extractor parses at most 50 elements per pass, so it also returns at
most 50 reviews. -/
theorem C10_result_caps :
    (∀ (scriptResults : List (List Review)) (selectorHits : List (List GenericInput)),
        (extract_reviews_from_current_page_driver scriptResults selectorHits).length ≤ 50) ∧
      (∀ elems : List SemanticInput,
        (extract_reviews_from_current_reviews_page_driver elems).length ≤ 50) := by
  constructor
  · intro sr sh
    simp only [extract_reviews_from_current_page_driver]
    rw [List.length_take]
    omega
  · intro elems
    calc (extract_reviews_from_current_reviews_page_driver elems).length
        ≤ (elems.take 50).length := List.length_filterMap_le _ _
      _ ≤ 50 := by rw [List.length_take]; omega

/-- Modelled from the spec: the repository's source contains no
checkpoint/resume code at all — the Checkpoint Store of spec section
4.4 (the `save`/`load`/`clear` contract, keyword-derived file names,
format-version tag and keyword-mismatch validation) and the
`CheckpointState` of section 3 exist only in the spec.  Records are
carried "as plain data" (here `Json` values), per section 3. -/
structure CheckpointState where
  keyword : String
  accumulated_records : List Json
  processed_urls : List String
  processed_count : Nat
  status : String
  saved_at : String

def checkpointFormatVersion : Int := 1

/-- Modelled from the spec: checkpoint files are "named
deterministically from the keyword (whitespace replaced)". -/
def checkpointKey (kw : String) : String :=
  String.map (fun c => if c = ' ' then '_' else c) kw

/-- Modelled from the spec: the serialized checkpoint blob with its
format-version tag and required fields. -/
def encodeCheckpoint (st : CheckpointState) : Json :=
  .obj [("version", .num checkpointFormatVersion),
        ("keyword", .str st.keyword),
        ("accumulated_records", .arr st.accumulated_records),
        ("processed_urls", .arr (st.processed_urls.map Json.str)),
        ("processed_count", .num st.processed_count),
        ("status", .str st.status),
        ("saved_at", .str st.saved_at)]

def jStrList : List Json → Option (List String)
  | [] => some []
  | .str s :: rest => (jStrList rest).map (s :: ·)
  | _ => none

/-- Modelled from the spec: load-side validation — the format-version
tag and every required field must be present and well-typed, otherwise
the checkpoint counts as absent. -/
def decodeCheckpoint (j : Json) : Option CheckpointState :=
  match j with
  | .obj kvs =>
    (match kvs.lookup "version", kvs.lookup "keyword", kvs.lookup "accumulated_records",
      kvs.lookup "processed_urls", kvs.lookup "processed_count", kvs.lookup "status",
      kvs.lookup "saved_at" with
    | some (.num v), some (.str kw), some (.arr recs), some (.arr urls),
        some (.num pc), some (.str stat), some (.str ts) =>
      if v = checkpointFormatVersion ∧ 0 ≤ pc then
        (jStrList urls).map (fun us => ⟨kw, recs, us, pc.toNat, stat, ts⟩)
      else none
    | _, _, _, _, _, _, _ => none)
  | _ => none

/-- Modelled from the spec: `save(keyword, state)` — whole-state
overwrite under the keyword-derived key, stamping the requested
keyword into the stored state.  The store is the keyword-keyed
key-value mapping of serialized blobs. -/
def saveCheckpoint (store : List (String × Json)) (kw : String) (st : CheckpointState) :
    List (String × Json) :=
  (checkpointKey kw, encodeCheckpoint { st with keyword := kw }) :: store

/-- Modelled from the spec: `load(keyword) -> CheckpointState | None` —
lookup, validate, and reject a checkpoint whose stored keyword does not
match the requested one. -/
def loadCheckpoint (store : List (String × Json)) (kw : String) : Option CheckpointState :=
  match store.lookup (checkpointKey kw) with
  | none => none
  | some j =>
    match decodeCheckpoint j with
    | none => none
    | some st => if st.keyword = kw then some st else none

lemma jStrList_map (us : List String) : jStrList (us.map Json.str) = some us := by
  induction us with
  | nil => rfl
  | cons u us ih => simp [jStrList, ih]

lemma decode_encode (st : CheckpointState) : decodeCheckpoint (encodeCheckpoint st) = some st := by
  simp only [decodeCheckpoint, encodeCheckpoint, List.lookup]
  simp only [show (("version" == "version") : Bool) = true from rfl]
  simp [jStrList_map, checkpointFormatVersion]

/-- C8: loading immediately after saving returns an equal state — the
processed-URL set is preserved (even with its order) and the
accumulated-records sequence is preserved in order. -/
theorem C8_checkpoint_round_trip (store : List (String × Json)) (kw : String)
    (st : CheckpointState) :
    ∃ st2, loadCheckpoint (saveCheckpoint store kw st) kw = some st2 ∧
      st2.processed_urls.toFinset = st.processed_urls.toFinset ∧
      st2.accumulated_records = st.accumulated_records := by
  refine ⟨{ st with keyword := kw }, ?_, rfl, rfl⟩
  simp only [loadCheckpoint, saveCheckpoint, List.lookup, beq_self_eq_true, decode_encode]
  simp

end Nykaa
